import Mathlib

/-!
Verification development for the Lookup History & Map-Sync Manager of the
IP-geolocation app (frontend `HomeScreen` component plus its Express backend).

The definitions below are a shallow embedding of the JavaScript source:
 - JS strings are modelled through their character lists (`List Char`);
   `String.prototype.trim` and `String.prototype.split(",")` are modelled by
   `trimChars` / `splitOnChar`.
 - The two anchored regular expressions of `IP_REGEX` are compiled by hand
   into decidable predicates on character lists (`ipv4OctetB`, `ipv6GroupB`).
 - The platform functions `parseFloat` and `JSON.parse`, which the component
   calls but the repository does not define, are modelled from their
   standard semantics (`parseFloatJS`, `jsonParse`).
 - The React component state (`geo`, `search`, `error`, `history`,
   `selectedForDelete`) becomes a `SessionState`; each synchronous run of
   a handler or of a segment of the `async` function `fetchGeoFor`
   (the part before the `await`, and the continuation after it) becomes one
   `Event` acted on by `step`.  A browser session is a fold of `step` over
   the list of events in the order the event loop ran them.
 - The Leaflet map object mutated by the `useEffect` on `[geo]` becomes a
   `MapState`, and one run of that effect becomes `mapUpdate`.
-/

/- ### JS string primitives -/

/-- The whitespace characters removed by `String.prototype.trim`
(ASCII whitespace, NBSP, BOM and the Unicode space separators). -/
def jsWhitespaceChars : List Char :=
  [' ', '\t', '\n', '\r', '\u000B', '\u000C', '\u00A0', '\u1680',
   '\u2000', '\u2001', '\u2002', '\u2003', '\u2004', '\u2005', '\u2006',
   '\u2007', '\u2008', '\u2009', '\u200A', '\u2028', '\u2029', '\u202F',
   '\u205F', '\u3000', '\uFEFF']

/-- `s.trim()` on the character list: drop surrounding whitespace. -/
def trimChars (cs : List Char) : List Char :=
  ((cs.dropWhile (fun c => decide (c ∈ jsWhitespaceChars))).reverse.dropWhile
    (fun c => decide (c ∈ jsWhitespaceChars))).reverse

/-- `s.trim()` as a `String → String` function. -/
def jsTrimS (s : String) : String := ⟨trimChars s.data⟩

/-- `s.split(sep)` for a one-character separator, with JS semantics:
`"".split(",") = [""]`, separators at the ends produce empty fields. -/
def splitOnChar (sep : Char) : List Char → List (List Char)
  | [] => [[]]
  | c :: rest =>
    match splitOnChar sep rest with
    | [] => [[]]
    | g :: gs => if c = sep then [] :: g :: gs else (c :: g) :: gs

/- ### The address validator (`IP_REGEX` and the checks in `handleSearch`) -/

/-- The ten decimal digit characters (the regex class `\d`). -/
def digitChars : List Char := ['0', '1', '2', '3', '4', '5', '6', '7', '8', '9']

/-- The regex class `[0-5]`. -/
def digit05 : List Char := ['0', '1', '2', '3', '4', '5']

/-- The regex class `[0-4]`. -/
def digit04 : List Char := ['0', '1', '2', '3', '4']

/-- The regex class `[0-9a-fA-F]`. -/
def hexChars : List Char :=
  digitChars ++ ['a', 'b', 'c', 'd', 'e', 'f', 'A', 'B', 'C', 'D', 'E', 'F']

/-- One IPv4 octet, compiled from the anchored alternation
`25[0-5]|2[0-4]\d|1?\d{1,2}` of `IP_REGEX.ipv4`: a string matches iff it is
one or two digits, or a three-character string of one of the shapes
`25[0-5]`, `2[0-4]\d`, `1\d\d`. -/
def ipv4OctetB (cs : List Char) : Bool :=
  match cs with
  | [a] => decide (a ∈ digitChars)
  | [a, b] => decide (a ∈ digitChars) && decide (b ∈ digitChars)
  | [a, b, c] =>
      (decide (a = '2') && decide (b = '5') && decide (c ∈ digit05))
      || (decide (a = '2') && decide (b ∈ digit04) && decide (c ∈ digitChars))
      || (decide (a = '1') && decide (b ∈ digitChars) && decide (c ∈ digitChars))
  | _ => false

/-- `IP_REGEX.ipv4.test(s)`: the anchored pattern
`^(octet)(\.(octet)){3}$`, i.e. exactly four dot-separated octets. -/
def ipv4B (s : String) : Bool :=
  decide ((splitOnChar '.' s.data).length = 4)
    && (splitOnChar '.' s.data).all ipv4OctetB

/-- One full-form IPv6 group, the regex class `[0-9a-fA-F]{1,4}`. -/
def ipv6GroupB (cs : List Char) : Bool :=
  decide (1 ≤ cs.length) && decide (cs.length ≤ 4)
    && cs.all (fun c => decide (c ∈ hexChars))

/-- The full-form half of `IP_REGEX.ipv6`:
`^([0-9a-fA-F]{1,4}:){7}[0-9a-fA-F]{1,4}$`, i.e. exactly eight
colon-separated groups of one to four hex digits. -/
def ipv6FullB (s : String) : Bool :=
  decide ((splitOnChar ':' s.data).length = 8)
    && (splitOnChar ':' s.data).all ipv6GroupB

/-- `IP_REGEX.ipv6.test(s)`: full form or the `::1` loopback alternative. -/
def ipv6B (s : String) : Bool := ipv6FullB s || decide (s = "::1")

/-- The three classification outcomes of the address validator. -/
inductive IpClass where
  | IPv4
  | IPv6
  | Invalid
deriving DecidableEq, Repr

/-- The address validator: `handleSearch` trims the input
(`const ip = search.trim()`) and then tests `IP_REGEX.ipv4` and
`IP_REGEX.ipv6` in that order; anything matching neither (including the
empty string, rejected earlier by `if (!ip)`) is invalid. -/
def classify (text : String) : IpClass :=
  let ip := jsTrimS text
  if ipv4B ip then IpClass.IPv4
  else if ipv6B ip then IpClass.IPv6
  else IpClass.Invalid

/- Spec-side characterisations (from the spec's words, for the refinement
claim C8; to be compared against the compiled regexes above). -/

/-- Digit value of a character, `'0' ↦ 0 … '9' ↦ 9`. -/
def dval (c : Char) : Nat := c.toNat - 48

/-- Value of a decimal numeral given as a character list. -/
def digitsToNat (cs : List Char) : Nat :=
  cs.foldl (fun n c => 10 * n + dval c) 0

/-- Modelled from the spec: an IPv4 octet is a nonempty decimal numeral
with value in [0,255]; "no leading-zero ambiguity beyond standard decimal
parsing" is formalised as: a numeral of three or more digits may not start
with `'0'` (one- and two-digit numerals are plain decimal). -/
def specIPv4Octet (cs : List Char) : Prop :=
  cs ≠ [] ∧ (∀ c ∈ cs, c ∈ digitChars) ∧ digitsToNat cs ≤ 255 ∧
    (cs.length ≤ 2 ∨ cs.head? ≠ some '0')

/-- Modelled from the spec: four dot-separated decimal octets each in
[0,255]. -/
def specIPv4 (s : String) : Prop :=
  (splitOnChar '.' s.data).length = 4 ∧
    ∀ p ∈ splitOnChar '.' s.data, specIPv4Octet p

/-- Modelled from the spec: full-form IPv6, eight colon-separated groups of
one to four hexadecimal digits. -/
def specIPv6Full (s : String) : Prop :=
  (splitOnChar ':' s.data).length = 8 ∧
    ∀ p ∈ splitOnChar ':' s.data,
      1 ≤ p.length ∧ p.length ≤ 4 ∧ ∀ c ∈ p, c ∈ hexChars

/- ### Data model -/

/-- Result of one lookup, as normalised from the provider response
(the fields the component reads; further provider fields are opaque
pass-through for display and do not enter any claim). An absent field is
`none`; a present field holds the provider string. -/
structure GeoRecord where
  ip : Option String
  city : Option String
  region : Option String
  country : Option String
  loc : Option String
  org : Option String
deriving DecidableEq, Repr

/-- One history entry, `{ ip: query, data, when: new Date().toISOString() }`
built in `fetchGeoFor`. -/
structure HistoryEntry where
  ip : String
  data : GeoRecord
  when : String
deriving DecidableEq, Repr

/-- The history updater of `fetchGeoFor`:
`[entry, ...prev.filter((h) => h.ip !== query)].slice(0, 50)` where
`query = entry.ip`. -/
def recordLookup (entry : HistoryEntry) (prev : List HistoryEntry) :
    List HistoryEntry :=
  (entry :: prev.filter (fun h => decide (h.ip ≠ entry.ip))).take 50

/-- A sequence of `recordLookup` calls starting from the empty history. -/
def runLookups (es : List HistoryEntry) : List HistoryEntry :=
  es.foldl (fun h e => recordLookup e h) []

/- ### The platform `parseFloat` (modelled from its standard semantics,
called by the map effect on the components of `loc.split(",")`) -/

/-- A JS number as far as the map effect observes it: `NaN`, `±Infinity`
or a finite value.  Finite values are modelled as exact rationals; the
claims touched here do not depend on binary64 rounding. -/
inductive JSNum where
  | nan
  | posInf
  | negInf
  | num (q : ℚ)
deriving DecidableEq, Repr

/-- `Number.isNaN` on a `JSNum`. -/
def JSNum.isNaN : JSNum → Bool
  | .nan => true
  | _ => false

/-- The digits/decimal-point/exponent body of `parseFloat`, after sign
handling: longest prefix of the form `\d*(\.\d*)?([eE][+-]?\d+)?` with at
least one digit in the integer or fraction part; anything else is `NaN`. -/
def parseFloatDigits (neg : Bool) (cs : List Char) : JSNum :=
  let intPart := cs.takeWhile Char.isDigit
  let rest1 := cs.dropWhile Char.isDigit
  let fracPart :=
    match rest1 with
    | '.' :: t => t.takeWhile Char.isDigit
    | _ => []
  let rest2 :=
    match rest1 with
    | '.' :: t => t.dropWhile Char.isDigit
    | _ => rest1
  if intPart.isEmpty && fracPart.isEmpty then JSNum.nan
  else
    let mant : ℚ :=
      (digitsToNat intPart : ℚ) + (digitsToNat fracPart : ℚ) / (10 : ℚ) ^ fracPart.length
    let expPair :=
      match rest2 with
      | 'e' :: '+' :: t => (false, t.takeWhile Char.isDigit)
      | 'e' :: '-' :: t => (true, t.takeWhile Char.isDigit)
      | 'e' :: t => (false, t.takeWhile Char.isDigit)
      | 'E' :: '+' :: t => (false, t.takeWhile Char.isDigit)
      | 'E' :: '-' :: t => (true, t.takeWhile Char.isDigit)
      | 'E' :: t => (false, t.takeWhile Char.isDigit)
      | _ => (false, [])
    let v : ℚ :=
      if expPair.2.isEmpty then mant
      else if expPair.1 then mant / (10 : ℚ) ^ digitsToNat expPair.2
      else mant * (10 : ℚ) ^ digitsToNat expPair.2
    JSNum.num (if neg then -v else v)

/-- Model of the platform `parseFloat`: skip leading whitespace, read an
optional sign, accept `Infinity` or a decimal literal prefix; return `NaN`
when no numeric prefix exists. -/
def parseFloatJS (s : String) : JSNum :=
  let cs := s.data.dropWhile (fun c => decide (c ∈ jsWhitespaceChars))
  match cs with
  | '+' :: 'I' :: 'n' :: 'f' :: 'i' :: 'n' :: 'i' :: 't' :: 'y' :: _ => JSNum.posInf
  | '-' :: 'I' :: 'n' :: 'f' :: 'i' :: 'n' :: 'i' :: 't' :: 'y' :: _ => JSNum.negInf
  | 'I' :: 'n' :: 'f' :: 'i' :: 'n' :: 'i' :: 't' :: 'y' :: _ => JSNum.posInf
  | '+' :: rest => parseFloatDigits false rest
  | '-' :: rest => parseFloatDigits true rest
  | rest => parseFloatDigits false rest

/- ### The map synchronizer (the `useEffect` on `[geo]`) -/

/-- JS truthiness of an optional string field (`undefined` and `""` are
falsy). -/
def truthyS : Option String → Bool
  | none => false
  | some s => decide (s ≠ "")

/-- Popup content bound by the effect: the present (truthy) fields among
ip/city/region/country/org, each as a labelled line, joined by `<br/>`. -/
def popupHtml (g : GeoRecord) : String :=
  String.intercalate "<br/>"
    ((if truthyS g.ip then ["<strong>IP:</strong> " ++ g.ip.getD ""] else [])
     ++ (if truthyS g.city then ["<strong>City:</strong> " ++ g.city.getD ""] else [])
     ++ (if truthyS g.region then ["<strong>Region:</strong> " ++ g.region.getD ""] else [])
     ++ (if truthyS g.country then ["<strong>Country:</strong> " ++ g.country.getD ""] else [])
     ++ (if truthyS g.org then ["<strong>Org:</strong> " ++ g.org.getD ""] else []))

/-- Observable state of the Leaflet map: viewport `(lat, lon, zoom)`,
marker position, bound popup content and whether it is open, and the
precision overlay circle `(lat, lon, radius)` stored on
`map._precisionCircle`. -/
structure MapState where
  viewport : Option (JSNum × JSNum × Nat)
  marker : Option (JSNum × JSNum)
  popup : Option String
  popupOpen : Bool
  circle : Option (JSNum × JSNum × Nat)
deriving DecidableEq, Repr

/-- Map right after the init effect: `center: [20, 0], zoom: 2`, no
marker, no popup, no circle. -/
def initMap : MapState :=
  { viewport := some (JSNum.num 20, JSNum.num 0, 2)
    marker := none
    popup := none
    popupOpen := false
    circle := none }

/-- One run of the `useEffect` on `[geo]`: with no current record it
returns at once; otherwise it splits `geo.loc || ""` on `","`, maps
`parseFloat`, and returns untouched unless there are exactly two non-`NaN`
components; on success it centers the viewport at zoom 12, places or moves
the marker, rebinds and opens the popup, and replaces the precision circle
(radius 500) at the new coordinates. -/
def mapUpdate (geo : Option GeoRecord) (m : MapState) : MapState :=
  match geo with
  | none => m
  | some g =>
    match (splitOnChar ',' (g.loc.getD "").data).map
        (fun p => parseFloatJS (String.mk p)) with
    | [lat, lon] =>
      if lat.isNaN || lon.isNaN then m
      else
        { viewport := some (lat, lon, 12)
          marker := some (lat, lon)
          popup := some (popupHtml g)
          popupOpen := true
          circle := some (lat, lon, 500) }
    | _ => m

/- ### The session controller (`HomeScreen` state and handlers) -/

/-- The React state of `HomeScreen` that the claims touch: current record
`geo`, input text `search`, `error` message, `history`, and the
`selectedForDelete` index map (an absent key reads as `false`). -/
structure SessionState where
  geo : Option GeoRecord
  search : String
  error : String
  history : List HistoryEntry
  selectedForDelete : Nat → Bool

/-- The message set by the `catch` branch of `fetchGeoFor`. -/
def errFetchMsg : String := "Unable to fetch geolocation for the provided IP."

/-- `history.filter((_, idx) => !selectedForDelete[idx])` from
`deleteSelected`. -/
def filterUnselected (hist : List HistoryEntry) (sel : Nat → Bool) :
    List HistoryEntry :=
  (hist.enum.filter (fun p => ! sel p.1)).map (fun p => p.2)

/-- The atomic occurrences the event loop interleaves.  `dispatch q` is the
synchronous prefix of `fetchGeoFor(q)` (up to the `await fetch`);
`respondOk q data ts` is its continuation when the fetch and JSON parse
succeed (`ts` is the captured `new Date().toISOString()`); `respondErr q`
is the `catch` branch.  The remaining events are the synchronous click
handlers that the claims need. -/
inductive Event where
  | dispatch (query : String)
  | respondOk (query : String) (data : GeoRecord) (ts : String)
  | respondErr (query : String)
  | clearAllClick
  | deleteSelectedClick
  | toggleSelect (idx : Nat)

/-- Effect of one event on the session state, read off the source:
`dispatch` runs `setError("")`; `respondOk` runs `setGeo(data)` and, for a
non-`"geo"` query, the dedup-prepend-truncate history updater;
`respondErr` runs `setError(...)`; the Clear All button runs
`setHistory([])` (and clears the durable slot) without touching the
selection; `deleteSelected` filters unselected indices and resets the
selection to `{}`; `toggleSelect` flips one index. -/
def step (s : SessionState) : Event → SessionState
  | .dispatch _ => { s with error := "" }
  | .respondOk q data ts =>
      { s with geo := some data
               history :=
                 if q ≠ "geo" then recordLookup ⟨q, data, ts⟩ s.history
                 else s.history }
  | .respondErr _ => { s with error := errFetchMsg }
  | .clearAllClick => { s with history := [] }
  | .deleteSelectedClick =>
      { s with history := filterUnselected s.history s.selectedForDelete
               selectedForDelete := fun _ => false }
  | .toggleSelect idx =>
      { s with selectedForDelete :=
          fun j => if j = idx then ! s.selectedForDelete idx
                   else s.selectedForDelete j }

/-- A session run: fold `step` over the events in the order the event loop
delivered them. -/
def run (s : SessionState) (es : List Event) : SessionState :=
  es.foldl step s

/-- The validation gate of `handleSearch`: trim the input; an empty or
regex-rejected string produces an error and no dispatch (`none`);
otherwise `fetchGeoFor` is dispatched for the trimmed string (`some`). -/
def handleSearchQuery (search : String) : Option String :=
  let ip := jsTrimS search
  if ip = "" then none
  else if ! (ipv4B ip || ipv6B ip) then none
  else some ip

/- ### The platform `JSON.parse` (modelled from its standard semantics,
called by the `history` `useState` initializer) -/

/-- A JSON value as `JSON.parse` returns it. -/
inductive Json where
  | null
  | jbool (b : Bool)
  | jnum (q : ℚ)
  | jstr (s : String)
  | jarr (elems : List Json)
  | jobj (fields : List (String × Json))

/-- The JSON grammar's insignificant whitespace. -/
def jsonWs (c : Char) : Bool := c = ' ' || c = '\t' || c = '\n' || c = '\r'

/-- Drop insignificant whitespace. -/
def skipWs (cs : List Char) : List Char := cs.dropWhile jsonWs

/-- Value of one hexadecimal digit. -/
def hexVal (c : Char) : Option Nat :=
  if 48 ≤ c.toNat && c.toNat ≤ 57 then some (c.toNat - 48)
  else if 97 ≤ c.toNat && c.toNat ≤ 102 then some (c.toNat - 87)
  else if 65 ≤ c.toNat && c.toNat ≤ 70 then some (c.toNat - 55)
  else none

/-- JSON string body (after the opening quote): characters until the
closing quote, with the standard escapes; raw control characters and bad
escapes are rejected. -/
def parseJString (cs : List Char) : Option (List Char × List Char) :=
  match cs with
  | [] => none
  | '"' :: rest => some ([], rest)
  | '\\' :: e :: rest =>
    match e with
    | '"' => (parseJString rest).map (fun p => ('"' :: p.1, p.2))
    | '\\' => (parseJString rest).map (fun p => ('\\' :: p.1, p.2))
    | '/' => (parseJString rest).map (fun p => ('/' :: p.1, p.2))
    | 'b' => (parseJString rest).map (fun p => ('\x08' :: p.1, p.2))
    | 'f' => (parseJString rest).map (fun p => ('\x0c' :: p.1, p.2))
    | 'n' => (parseJString rest).map (fun p => ('\n' :: p.1, p.2))
    | 'r' => (parseJString rest).map (fun p => ('\r' :: p.1, p.2))
    | 't' => (parseJString rest).map (fun p => ('\t' :: p.1, p.2))
    | 'u' =>
      match rest with
      | a :: b :: c :: d :: rest2 =>
        match hexVal a, hexVal b, hexVal c, hexVal d with
        | some x, some y, some z, some w =>
          (parseJString rest2).map
            (fun p => (Char.ofNat (4096 * x + 256 * y + 16 * z + w) :: p.1, p.2))
        | _, _, _, _ => none
      | _ => none
    | _ => none
  | c :: rest =>
    if c.toNat < 32 then none
    else (parseJString rest).map (fun p => (c :: p.1, p.2))
termination_by cs.length
decreasing_by all_goals simp_wf <;> omega

/-- Mantissa and optional exponent tail of a JSON number. -/
def parseJExpTail (mk : Int → ℚ) (cs : List Char) : Option (ℚ × List Char) :=
  let p := match cs with
    | '+' :: t => (false, t)
    | '-' :: t => (true, t)
    | _ => (false, cs)
  let ds := p.2.takeWhile Char.isDigit
  let cs2 := p.2.dropWhile Char.isDigit
  if ds.isEmpty then none
  else
    some (mk (if p.1 then -(digitsToNat ds : Int) else (digitsToNat ds : Int)), cs2)

/-- Assemble a JSON number from sign, integer and fraction digits, then
read an optional exponent. -/
def parseJExp (neg : Bool) (intPart fracPart : List Char) (cs : List Char) :
    Option (ℚ × List Char) :=
  let mk : Int → ℚ := fun e =>
    let mant : ℚ :=
      (digitsToNat intPart : ℚ) + (digitsToNat fracPart : ℚ) / (10 : ℚ) ^ fracPart.length
    (if neg then -mant else mant) * (10 : ℚ) ^ e
  match cs with
  | 'e' :: t => parseJExpTail mk t
  | 'E' :: t => parseJExpTail mk t
  | _ => some (mk 0, cs)

/-- A JSON number literal: `-?(0|[1-9]\d*)(\.\d+)?([eE][+-]?\d+)?`. -/
def parseJNumber (cs : List Char) : Option (ℚ × List Char) :=
  let p := match cs with
    | '-' :: t => (true, t)
    | _ => (false, cs)
  let intPart := p.2.takeWhile Char.isDigit
  let cs2 := p.2.dropWhile Char.isDigit
  if intPart.isEmpty || (decide (1 < intPart.length) && decide (intPart.head? = some '0')) then
    none
  else
    match cs2 with
    | '.' :: t =>
      let fracPart := t.takeWhile Char.isDigit
      let cs3 := t.dropWhile Char.isDigit
      if fracPart.isEmpty then none
      else parseJExp p.1 intPart fracPart cs3
    | _ => parseJExp p.1 intPart [] cs2

mutual

/-- One JSON value, fuel-bounded recursive descent. -/
def parseJVal : Nat → List Char → Option (Json × List Char)
  | 0, _ => none
  | Nat.succ fuel, cs =>
    match skipWs cs with
    | 'n' :: 'u' :: 'l' :: 'l' :: rest => some (Json.null, rest)
    | 't' :: 'r' :: 'u' :: 'e' :: rest => some (Json.jbool true, rest)
    | 'f' :: 'a' :: 'l' :: 's' :: 'e' :: rest => some (Json.jbool false, rest)
    | '"' :: rest =>
      (parseJString rest).map (fun p => (Json.jstr (String.mk p.1), p.2))
    | '[' :: rest =>
      match parseJArr fuel rest with
      | some (xs, r) => some (Json.jarr xs, r)
      | none => none
    | '{' :: rest =>
      match parseJObj fuel rest with
      | some (fs, r) => some (Json.jobj fs, r)
      | none => none
    | rest => (parseJNumber rest).map (fun p => (Json.jnum p.1, p.2))

/-- Array body after `[`. -/
def parseJArr : Nat → List Char → Option (List Json × List Char)
  | 0, _ => none
  | Nat.succ fuel, cs =>
    match skipWs cs with
    | ']' :: rest => some ([], rest)
    | other =>
      match parseJVal fuel other with
      | none => none
      | some (v, r) =>
        match parseJArrRest fuel r with
        | some (vs, r2) => some (v :: vs, r2)
        | none => none

/-- Array continuation: `,` then a value, or the closing `]`. -/
def parseJArrRest : Nat → List Char → Option (List Json × List Char)
  | 0, _ => none
  | Nat.succ fuel, cs =>
    match skipWs cs with
    | ']' :: rest => some ([], rest)
    | ',' :: rest =>
      match parseJVal fuel rest with
      | none => none
      | some (v, r) =>
        match parseJArrRest fuel r with
        | some (vs, r2) => some (v :: vs, r2)
        | none => none
    | _ => none

/-- One `"key": value` object member. -/
def parseJMember : Nat → List Char → Option ((String × Json) × List Char)
  | 0, _ => none
  | Nat.succ fuel, cs =>
    match skipWs cs with
    | '"' :: rest =>
      match parseJString rest with
      | none => none
      | some (k, r) =>
        match skipWs r with
        | ':' :: r2 =>
          match parseJVal fuel r2 with
          | none => none
          | some (v, r3) => some ((String.mk k, v), r3)
        | _ => none
    | _ => none

/-- Object body after `{`. -/
def parseJObj : Nat → List Char → Option (List (String × Json) × List Char)
  | 0, _ => none
  | Nat.succ fuel, cs =>
    match skipWs cs with
    | '}' :: rest => some ([], rest)
    | _ =>
      match parseJMember fuel cs with
      | none => none
      | some (kv, r) =>
        match parseJObjRest fuel r with
        | some (kvs, r2) => some (kv :: kvs, r2)
        | none => none

/-- Object continuation: `,` then a member, or the closing `}`. -/
def parseJObjRest : Nat → List Char → Option (List (String × Json) × List Char)
  | 0, _ => none
  | Nat.succ fuel, cs =>
    match skipWs cs with
    | '}' :: rest => some ([], rest)
    | ',' :: rest =>
      match parseJMember fuel rest with
      | none => none
      | some (kv, r) =>
        match parseJObjRest fuel r with
        | some (kvs, r2) => some (kv :: kvs, r2)
        | none => none
    | _ => none

end

/-- Model of the platform `JSON.parse`: one value followed only by
whitespace; `none` models a thrown `SyntaxError`. -/
def jsonParse (s : String) : Option Json :=
  match parseJVal (s.data.length + 1) s.data with
  | some (v, rest) => if (skipWs rest).isEmpty then some v else none
  | none => none

/-- The `history` `useState` initializer:
`try { return JSON.parse(localStorage.getItem(STORAGE_KEY) || "[]") }
catch { return [] }`.  `slot` is the durable slot content (`none` for a
missing key).  A `null` or empty-string slot falls back to `"[]"` before
parsing, and a parse failure is absorbed into the empty array. -/
def loadHistory (slot : Option String) : Json :=
  let raw :=
    match slot with
    | none => "[]"
    | some s => if s = "" then "[]" else s
  match jsonParse raw with
  | some v => v
  | none => Json.jarr []

/- ### Helper lemmas about `splitOnChar` -/

theorem splitOnChar_ne_nil (sep : Char) : ∀ cs, splitOnChar sep cs ≠ [] := by
  intro cs
  induction cs with
  | nil => simp [splitOnChar]
  | cons c rest ih =>
    simp only [splitOnChar]
    rcases hs : splitOnChar sep rest with _ | ⟨g, gs⟩
    · exact absurd hs ih
    · by_cases hc : c = sep <;> simp [hc]

theorem splitOnChar_sep_mem {sep : Char} :
    ∀ {cs : List Char}, 2 ≤ (splitOnChar sep cs).length → sep ∈ cs := by
  intro cs
  induction cs with
  | nil => intro h; simp [splitOnChar] at h
  | cons c rest ih =>
    intro h
    simp only [splitOnChar] at h
    rcases hs : splitOnChar sep rest with _ | ⟨g, gs⟩
    · exact absurd hs (splitOnChar_ne_nil sep rest)
    · rw [hs] at h
      replace h :
          2 ≤ (if c = sep then ([] : List Char) :: g :: gs else (c :: g) :: gs).length := h
      by_cases hc : c = sep
      · simp [hc]
      · rw [if_neg hc] at h
        simp only [List.length_cons] at h
        have h2 : 2 ≤ (splitOnChar sep rest).length := by rw [hs]; simp; omega
        exact List.mem_cons_of_mem _ (ih h2)

theorem mem_splitOnChar_of_mem {sep : Char} :
    ∀ {cs : List Char} {c : Char}, c ∈ cs →
      c = sep ∨ ∃ g ∈ splitOnChar sep cs, c ∈ g := by
  intro cs
  induction cs with
  | nil => intro c h; simp at h
  | cons a rest ih =>
    intro c h
    rcases hs : splitOnChar sep rest with _ | ⟨g, gs⟩
    · exact absurd hs (splitOnChar_ne_nil sep rest)
    · rcases List.mem_cons.mp h with rfl | hmem
      · by_cases hc : c = sep
        · exact Or.inl hc
        · refine Or.inr ⟨c :: g, ?_, by simp⟩
          simp [splitOnChar, hs, hc]
      · rcases ih hmem with hc | ⟨g2, hg2, hcg2⟩
        · exact Or.inl hc
        · rw [hs] at hg2
          by_cases hca : a = sep
          · refine Or.inr ⟨g2, ?_, hcg2⟩
            simp only [splitOnChar, hs, if_pos hca]
            exact List.mem_cons_of_mem _ hg2
          · rcases List.mem_cons.mp hg2 with rfl | hg2tl
            · refine Or.inr ⟨a :: g2, ?_, List.mem_cons_of_mem _ hcg2⟩
              simp [splitOnChar, hs, hca]
            · refine Or.inr ⟨g2, ?_, hcg2⟩
              simp only [splitOnChar, hs, if_neg hca]
              exact List.mem_cons_of_mem _ hg2tl

/- ### Helper lemmas about digits and octets -/

theorem dval_le_nine : ∀ c ∈ digitChars, dval c ≤ 9 := by decide

theorem dval_pos : ∀ c ∈ digitChars, c ≠ '0' → 1 ≤ dval c := by decide

theorem mem_digit05_digit : ∀ c ∈ digit05, c ∈ digitChars := by decide

theorem mem_digit04_digit : ∀ c ∈ digit04, c ∈ digitChars := by decide

theorem digitsToNat_cons (a : Char) (rest : List Char) :
    digitsToNat (a :: rest) = rest.foldl (fun acc c => 10 * acc + dval c) (dval a) := by
  simp [digitsToNat]

theorem digitsToNat_singleton (a : Char) : digitsToNat [a] = dval a := by
  simp [digitsToNat]

theorem digitsToNat_pair (a b : Char) : digitsToNat [a, b] = 10 * dval a + dval b := by
  simp [digitsToNat]

theorem foldl_digits_ge (rest : List Char) :
    ∀ n : ℕ, n * 10 ^ rest.length ≤ rest.foldl (fun acc c => 10 * acc + dval c) n := by
  induction rest with
  | nil => intro n; simp
  | cons c t ih =>
    intro n
    have h1 := ih (10 * n + dval c)
    have h2 : n * 10 ^ (c :: t).length ≤ (10 * n + dval c) * 10 ^ t.length := by
      calc n * 10 ^ (c :: t).length = (10 * n) * 10 ^ t.length := by
            simp only [List.length_cons, pow_succ]; ring
        _ ≤ (10 * n + dval c) * 10 ^ t.length :=
            Nat.mul_le_mul_right _ (Nat.le_add_right _ _)
    simp only [List.foldl_cons]
    exact le_trans h2 h1

theorem digitsToNat_ge (a : Char) (rest : List Char) (ha : 1 ≤ dval a) :
    10 ^ rest.length ≤ digitsToNat (a :: rest) := by
  rw [digitsToNat_cons]
  calc 10 ^ rest.length = 1 * 10 ^ rest.length := (one_mul _).symm
    _ ≤ dval a * 10 ^ rest.length := Nat.mul_le_mul_right _ ha
    _ ≤ _ := foldl_digits_ge rest (dval a)

set_option maxHeartbeats 1000000 in
theorem octet3_cases : ∀ a ∈ digitChars, ∀ b ∈ digitChars, ∀ c ∈ digitChars,
    ipv4OctetB [a, b, c] = (decide (digitsToNat [a, b, c] ≤ 255) && decide (a ≠ '0')) := by
  decide

theorem ipv4OctetB_digits : ∀ (cs : List Char), ipv4OctetB cs = true →
    ∀ c ∈ cs, c ∈ digitChars := by
  intro cs
  match cs with
  | [] => intro h; exact absurd h (by simp [ipv4OctetB])
  | [a] =>
    intro h c hc
    rw [List.mem_singleton] at hc
    subst hc
    exact of_decide_eq_true h
  | [a, b] =>
    intro h c hc
    have h' : a ∈ digitChars ∧ b ∈ digitChars := by simpa [ipv4OctetB] using h
    rcases List.mem_cons.mp hc with rfl | hc2
    · exact h'.1
    · rw [List.mem_singleton] at hc2
      subst hc2
      exact h'.2
  | [a, b, c0] =>
    intro h c hc
    have h' : ((decide (a = '2') && decide (b = '5') && decide (c0 ∈ digit05))
        || (decide (a = '2') && decide (b ∈ digit04) && decide (c0 ∈ digitChars))
        || (decide (a = '1') && decide (b ∈ digitChars) && decide (c0 ∈ digitChars)))
        = true := h
    have hp : (a = '2' ∧ b = '5' ∧ c0 ∈ digit05)
        ∨ (a = '2' ∧ b ∈ digit04 ∧ c0 ∈ digitChars)
        ∨ (a = '1' ∧ b ∈ digitChars ∧ c0 ∈ digitChars) := by
      simpa [Bool.or_eq_true, Bool.and_eq_true, decide_eq_true_iff, and_assoc,
        or_assoc] using h'
    have habc : a ∈ digitChars ∧ b ∈ digitChars ∧ c0 ∈ digitChars := by
      rcases hp with ⟨rfl, rfl, h5⟩ | ⟨rfl, h4, hd⟩ | ⟨rfl, hb, hd⟩
      · exact ⟨by decide, by decide, mem_digit05_digit _ h5⟩
      · exact ⟨by decide, mem_digit04_digit _ h4, hd⟩
      · exact ⟨by decide, hb, hd⟩
    rcases List.mem_cons.mp hc with rfl | hc2
    · exact habc.1
    rcases List.mem_cons.mp hc2 with rfl | hc3
    · exact habc.2.1
    rw [List.mem_singleton] at hc3
    subst hc3
    exact habc.2.2
  | a :: b :: c0 :: d :: rest =>
    intro h
    exact absurd h (by simp [ipv4OctetB])
theorem ipv4OctetB_iff_spec (cs : List Char) : ipv4OctetB cs = true ↔ specIPv4Octet cs := by
  match cs with
  | [] =>
    simp [ipv4OctetB, specIPv4Octet]
  | [a] =>
    constructor
    · intro h
      have ha : a ∈ digitChars := of_decide_eq_true h
      refine ⟨by simp, by simpa using ha, ?_, Or.inl (by simp)⟩
      rw [digitsToNat_singleton]
      have := dval_le_nine a ha
      omega
    · rintro ⟨-, hdig, -, -⟩
      have ha : a ∈ digitChars := hdig a (by simp)
      simpa [ipv4OctetB] using ha
  | [a, b] =>
    constructor
    · intro h
      have h' : a ∈ digitChars ∧ b ∈ digitChars := by simpa [ipv4OctetB] using h
      refine ⟨by simp, ?_, ?_, Or.inl (by simp)⟩
      · intro c hc
        rcases List.mem_cons.mp hc with rfl | hc2
        · exact h'.1
        · rw [List.mem_singleton] at hc2
          subst hc2
          exact h'.2
      · rw [digitsToNat_pair]
        have h9a := dval_le_nine a h'.1
        have h9b := dval_le_nine b h'.2
        omega
    · rintro ⟨-, hdig, -, -⟩
      have ha : a ∈ digitChars := hdig a (by simp)
      have hb : b ∈ digitChars := hdig b (by simp)
      simp [ipv4OctetB, ha, hb]
  | [a, b, c] =>
    by_cases hd : a ∈ digitChars ∧ b ∈ digitChars ∧ c ∈ digitChars
    · obtain ⟨ha, hb, hc⟩ := hd
      rw [octet3_cases a ha b hb c hc]
      constructor
      · intro h
        have h' : digitsToNat [a, b, c] ≤ 255 ∧ a ≠ '0' := by simpa using h
        refine ⟨by simp, ?_, h'.1, Or.inr (by simpa using h'.2)⟩
        intro x hx
        rcases List.mem_cons.mp hx with rfl | hx2
        · exact ha
        rcases List.mem_cons.mp hx2 with rfl | hx3
        · exact hb
        rw [List.mem_singleton] at hx3
        subst hx3
        exact hc
      · rintro ⟨-, -, hle, hlz⟩
        have ha0 : a ≠ '0' := by
          rcases hlz with h2 | hh
          · simp at h2
          · simpa using hh
        simp [hle, ha0]
    · constructor
      · intro h
        exact absurd ⟨ipv4OctetB_digits _ h a (by simp), ipv4OctetB_digits _ h b (by simp),
          ipv4OctetB_digits _ h c (by simp)⟩ hd
      · rintro ⟨-, hdig, -, -⟩
        exact absurd ⟨hdig a (by simp), hdig b (by simp), hdig c (by simp)⟩ hd
  | a :: b :: c :: d :: rest =>
    constructor
    · intro h
      exact absurd h (by simp [ipv4OctetB])
    · rintro ⟨-, hdig, hle, hlz⟩
      exfalso
      have hlen : (a :: b :: c :: d :: rest).length = rest.length + 4 := by simp
      have ha0 : a ≠ '0' := by
        rcases hlz with h2 | hh
        · rw [hlen] at h2
          omega
        · simpa using hh
      have ha : a ∈ digitChars := hdig a (by simp)
      have h1 : 1 ≤ dval a := dval_pos a ha ha0
      have h2 : 10 ^ (b :: c :: d :: rest).length ≤ digitsToNat (a :: b :: c :: d :: rest) :=
        digitsToNat_ge a _ h1
      have h3 : 1000 ≤ 10 ^ (b :: c :: d :: rest).length := by
        have hl3 : (3 : ℕ) ≤ (b :: c :: d :: rest).length := by simp
        calc (1000 : ℕ) = 10 ^ 3 := by norm_num
          _ ≤ 10 ^ (b :: c :: d :: rest).length := Nat.pow_le_pow_right (by norm_num) hl3
      omega

theorem ipv4B_iff_spec (s : String) : ipv4B s = true ↔ specIPv4 s := by
  constructor
  · intro h
    have h' : (splitOnChar '.' s.data).length = 4
        ∧ ∀ p ∈ splitOnChar '.' s.data, ipv4OctetB p = true := by
      simpa [ipv4B, List.all_eq_true] using h
    exact ⟨h'.1, fun p hp => (ipv4OctetB_iff_spec p).mp (h'.2 p hp)⟩
  · rintro ⟨hlen, hall⟩
    have : (splitOnChar '.' s.data).length = 4
        ∧ ∀ p ∈ splitOnChar '.' s.data, ipv4OctetB p = true :=
      ⟨hlen, fun p hp => (ipv4OctetB_iff_spec p).mpr (hall p hp)⟩
    simpa [ipv4B, List.all_eq_true] using this

theorem ipv6FullB_iff_spec (s : String) : ipv6FullB s = true ↔ specIPv6Full s := by
  constructor
  · intro h
    have h' : (splitOnChar ':' s.data).length = 8
        ∧ ∀ p ∈ splitOnChar ':' s.data, ipv6GroupB p = true := by
      simpa [ipv6FullB, List.all_eq_true] using h
    refine ⟨h'.1, fun p hp => ?_⟩
    have hg := h'.2 p hp
    have : (1 ≤ p.length ∧ p.length ≤ 4) ∧ ∀ c ∈ p, c ∈ hexChars := by
      simpa [ipv6GroupB, List.all_eq_true] using hg
    exact ⟨this.1.1, this.1.2, this.2⟩
  · rintro ⟨hlen, hall⟩
    have : (splitOnChar ':' s.data).length = 8
        ∧ ∀ p ∈ splitOnChar ':' s.data, ipv6GroupB p = true := by
      refine ⟨hlen, fun p hp => ?_⟩
      have := hall p hp
      simp [ipv6GroupB, List.all_eq_true]
      exact ⟨⟨this.1, this.2.1⟩, this.2.2⟩
    simpa [ipv6FullB, List.all_eq_true] using this

theorem ipv6B_not_ipv4 (s : String) (h : ipv6B s = true) : ipv4B s = false := by
  cases hb : ipv4B s
  · rfl
  · exfalso
    have hor : ipv6FullB s = true ∨ s = "::1" := by simpa [ipv6B] using h
    rcases hor with hfull | heq
    · have h8 : (splitOnChar ':' s.data).length = 8
          ∧ ∀ p ∈ splitOnChar ':' s.data, ipv6GroupB p = true := by
        simpa [ipv6FullB, List.all_eq_true] using hfull
      have hcolon : ':' ∈ s.data := splitOnChar_sep_mem (by rw [h8.1]; omega)
      have h4 : (splitOnChar '.' s.data).length = 4
          ∧ ∀ p ∈ splitOnChar '.' s.data, ipv4OctetB p = true := by
        simpa [ipv4B, List.all_eq_true] using hb
      rcases @mem_splitOnChar_of_mem '.' s.data ':' hcolon with hdot | ⟨g, hg, hcg⟩
      · exact absurd hdot (by decide)
      · have := ipv4OctetB_digits g (h4.2 g hg) ':' hcg
        exact absurd this (by decide)
    · subst heq
      exact absurd hb (by decide)

theorem classify_eq_ipv4 (s : String) :
    classify s = IpClass.IPv4 ↔ ipv4B (jsTrimS s) = true := by
  unfold classify
  by_cases h4 : ipv4B (jsTrimS s) <;> by_cases h6 : ipv6B (jsTrimS s) <;>
    simp [h4, h6]

theorem classify_eq_ipv6 (s : String) :
    classify s = IpClass.IPv6 ↔ ipv6B (jsTrimS s) = true := by
  unfold classify
  by_cases h4 : ipv4B (jsTrimS s) = true
  · have h6f : ipv6B (jsTrimS s) = false := by
      cases h6 : ipv6B (jsTrimS s)
      · rfl
      · rw [ipv6B_not_ipv4 _ h6] at h4
        exact absurd h4 (by simp)
    simp [h4, h6f]
  · by_cases h6 : ipv6B (jsTrimS s) = true <;> simp [h4, h6]

/- ### Helper lemmas about `recordLookup` -/

theorem recordLookup_eq (entry : HistoryEntry) (prev : List HistoryEntry) :
    recordLookup entry prev
      = entry :: (prev.filter (fun h => decide (h.ip ≠ entry.ip))).take 49 := by
  rw [recordLookup, show (50 : ℕ) = 49 + 1 from rfl, List.take_succ_cons]

theorem recordLookup_nodup (entry : HistoryEntry) (prev : List HistoryEntry)
    (h : (prev.map HistoryEntry.ip).Nodup) :
    ((recordLookup entry prev).map HistoryEntry.ip).Nodup := by
  have hnd : ((entry :: prev.filter (fun x => decide (x.ip ≠ entry.ip))).map
      HistoryEntry.ip).Nodup := by
    simp only [List.map_cons, List.nodup_cons]
    constructor
    · intro hmem
      rcases List.mem_map.mp hmem with ⟨x, hx, hxip⟩
      exact absurd hxip (of_decide_eq_true (List.mem_filter.mp hx).2)
    · exact ((List.filter_sublist prev).map HistoryEntry.ip).nodup h
  exact ((List.take_sublist _ _).map HistoryEntry.ip).nodup hnd

theorem recordLookup_len (entry : HistoryEntry) (prev : List HistoryEntry) :
    (recordLookup entry prev).length ≤ 50 := by
  rw [recordLookup]
  exact List.length_take_le _ _

theorem runLookups_aux (es : List HistoryEntry) :
    ∀ h : List HistoryEntry, (h.map HistoryEntry.ip).Nodup → h.length ≤ 50 →
      ((es.foldl (fun acc e => recordLookup e acc) h).map HistoryEntry.ip).Nodup
      ∧ (es.foldl (fun acc e => recordLookup e acc) h).length ≤ 50 := by
  induction es with
  | nil => intro h hnd hlen; exact ⟨hnd, hlen⟩
  | cons e t ih =>
    intro h hnd hlen
    simp only [List.foldl_cons]
    exact ih _ (recordLookup_nodup e h hnd) (recordLookup_len e h)

theorem recordLookup_dedup_core (prev : List HistoryEntry) (entry : HistoryEntry) :
    (recordLookup entry prev).head? = some entry
    ∧ (recordLookup entry prev).filter (fun h => decide (h.ip = entry.ip)) = [entry]
    ∧ (recordLookup entry prev).tail.Sublist prev := by
  rw [recordLookup_eq]
  refine ⟨rfl, ?_, ?_⟩
  · rw [List.filter_cons_of_pos (by simp)]
    have hnil : (List.take 49 (prev.filter fun h => decide (h.ip ≠ entry.ip))).filter
        (fun h => decide (h.ip = entry.ip)) = [] := by
      rw [List.filter_eq_nil_iff]
      intro x hx
      have hx2 : x ∈ prev.filter (fun h => decide (h.ip ≠ entry.ip)) :=
        List.mem_of_mem_take hx
      have := of_decide_eq_true (List.mem_filter.mp hx2).2
      simpa using this
    rw [hnil]
  · exact (List.take_sublist _ _).trans (List.filter_sublist prev)

/- ### Concrete example values for witnesses and counterexamples -/

/-- A provider record for `1.1.1.1` with no location. -/
def exRecA : GeoRecord := ⟨some "1.1.1.1", none, none, none, none, none⟩

/-- A provider record for `2.2.2.2` with no location. -/
def exRecB : GeoRecord := ⟨some "2.2.2.2", none, none, none, none, none⟩

/-- A stored history entry for `1.1.1.1`. -/
def exEntryOld : HistoryEntry := ⟨"1.1.1.1", exRecA, "t0"⟩

/-- A fresh entry re-searching the same IP with new data and timestamp. -/
def exEntryNew : HistoryEntry := ⟨"1.1.1.1", exRecB, "t9"⟩

/-- Component state right after mount, before any event. -/
def freshSession : SessionState := ⟨none, "", "", [], fun _ => false⟩

/-- A record whose `loc` parses to `(12.3, -45.6)`. -/
def exMapG1 : GeoRecord :=
  ⟨some "1.1.1.1", some "CityA", none, none, some "12.3,-45.6", none⟩

/-- A record whose `loc` does not parse. -/
def exMapG2 : GeoRecord :=
  ⟨some "2.2.2.2", none, none, none, some "not-a-loc", none⟩

/-- A SelectionSet with indices 0 and 2 marked true. -/
def sel02 : Nat → Bool := fun i => decide (i = 0) || decide (i = 2)

/-- A SelectionSet with index 0 marked true. -/
def sel0 : Nat → Bool := fun i => decide (i = 0)

/- ### The claims -/

/-- C1: starting from the empty history, after any sequence of
`recordLookup` calls the history has pairwise distinct `ip` fields
(case-sensitive, since string equality is exact) and length at most 50. -/
theorem history_nodup_and_bounded (es : List HistoryEntry) :
    ((runLookups es).map HistoryEntry.ip).Nodup ∧ (runLookups es).length ≤ 50 :=
  runLookups_aux es [] (by simp) (by simp)

/-- C2 counterexample: dispatching a search for `1.1.1.1` and then for
`2.2.2.2`, with the `1.1.1.1` response arriving after the `2.2.2.2` one,
leaves the current record equal to the `1.1.1.1` result, not the later
dispatch's `2.2.2.2` result — the code never discards a stale response,
so the claim's last-dispatch-wins property fails on this input. -/
theorem stale_response_overwrites_current :
    (run freshSession
        [Event.dispatch "1.1.1.1", Event.dispatch "2.2.2.2",
         Event.respondOk "2.2.2.2" exRecB "t1",
         Event.respondOk "1.1.1.1" exRecA "t2"]).geo = some exRecA
    ∧ exRecA ≠ exRecB := ⟨rfl, by decide⟩

/-- C2 amended: the current record always equals the result of whichever
successful response arrived last (last-response-wins), regardless of
dispatch order. -/
theorem last_response_wins (s : SessionState) (es : List Event) (q : String)
    (d : GeoRecord) (ts : String) :
    (run s (es ++ [Event.respondOk q d ts])).geo = some d := by
  show (List.foldl step s (es ++ [Event.respondOk q d ts])).geo = some d
  rw [List.foldl_append]
  rfl

/-- C3 counterexample: after a record with parsable `loc` has placed a
marker and an overlay circle, a record with unparsable `loc` leaves the
whole map state — including the overlay circle — unchanged; the circle is
NOT removed, refuting the claim's removal clause. -/
theorem unparsable_loc_keeps_circle :
    (mapUpdate (some exMapG1) initMap).circle ≠ none
    ∧ mapUpdate (some exMapG2) (mapUpdate (some exMapG1) initMap)
        = mapUpdate (some exMapG1) initMap
    ∧ (mapUpdate (some exMapG2) (mapUpdate (some exMapG1) initMap)).circle ≠ none :=
  ⟨by decide, rfl, by decide⟩

/-- C3 amended: a record whose `loc` does not split-and-parse into exactly
two non-`NaN` components issues no map commands at all: marker position,
viewport, popup AND overlay circle are left exactly as they were. -/
theorem mapUpdate_unparsable_noop (g : GeoRecord) (m : MapState)
    (h : ((splitOnChar ',' (g.loc.getD "").data).map
        (fun p => parseFloatJS (String.mk p))).length ≠ 2
      ∨ ((splitOnChar ',' (g.loc.getD "").data).map
        (fun p => parseFloatJS (String.mk p))).any JSNum.isNaN = true) :
    mapUpdate (some g) m = m := by
  cases hn : (splitOnChar ',' (g.loc.getD "").data).map
      (fun p => parseFloatJS (String.mk p)) with
  | nil => simp [mapUpdate, hn]
  | cons x t =>
    cases t with
    | nil => simp [mapUpdate, hn]
    | cons y t2 =>
      cases t2 with
      | nil =>
        rw [hn] at h
        rcases h with hlen | hnan
        · simp at hlen
        · have hxy : (x.isNaN || y.isNaN) = true := by
            simpa [List.any] using hnan
          simp [mapUpdate, hn, hxy]
      | cons z t3 => simp [mapUpdate, hn]

/-- C3 amended witness: a record with no `loc` at all satisfies the
unparsable hypothesis and leaves the initial map untouched. -/
theorem mapUpdate_unparsable_noop_witness :
    (((splitOnChar ',' ((GeoRecord.mk none none none none none none).loc.getD "").data).map
        (fun p => parseFloatJS (String.mk p))).length ≠ 2
      ∨ ((splitOnChar ',' ((GeoRecord.mk none none none none none none).loc.getD "").data).map
        (fun p => parseFloatJS (String.mk p))).any JSNum.isNaN = true)
    ∧ mapUpdate (some (GeoRecord.mk none none none none none none)) initMap = initMap :=
  ⟨Or.inl (by decide), mapUpdate_unparsable_noop _ _ (Or.inl (by decide))⟩

/-- C4: `recordLookup` of an entry whose `ip` already occurs in the
history yields a sequence whose head (index 0) is exactly the new entry
(new data and timestamp), which contains exactly one entry for that `ip`,
and whose remaining entries are a subsequence of the old history (their
relative order preserved). -/
theorem recordLookup_dedup_front (prev : List HistoryEntry) (entry : HistoryEntry)
    (hmem : entry.ip ∈ prev.map HistoryEntry.ip) :
    (recordLookup entry prev).head? = some entry
    ∧ (recordLookup entry prev).filter (fun h => decide (h.ip = entry.ip)) = [entry]
    ∧ (recordLookup entry prev).tail.Sublist prev :=
  recordLookup_dedup_core prev entry

/-- C4 witness: re-searching `1.1.1.1` over a one-entry history for the
same IP replaces it in front with the new data. -/
theorem recordLookup_dedup_front_witness :
    exEntryNew.ip ∈ [exEntryOld].map HistoryEntry.ip
    ∧ (recordLookup exEntryNew [exEntryOld]).head? = some exEntryNew
    ∧ (recordLookup exEntryNew [exEntryOld]).filter
        (fun h => decide (h.ip = exEntryNew.ip)) = [exEntryNew]
    ∧ (recordLookup exEntryNew [exEntryOld]).tail.Sublist [exEntryOld] :=
  ⟨by decide,
   (recordLookup_dedup_front _ _ (by decide)).1,
   (recordLookup_dedup_front _ _ (by decide)).2.1,
   (recordLookup_dedup_front _ _ (by decide)).2.2⟩

/-- C5: the code evaluated at the failing input: with one history entry
and index 0 marked for deletion, the Clear All button replaces the
history sequence by `[]` yet leaves index 0 still marked, and a
successful manual lookup's history replacement also leaves the
SelectionSet untouched — only the deletion commit clears it, so the
claim's "cleared whenever the history sequence is replaced" fails. -/
theorem clearAll_leaves_selection :
    (step ⟨none, "", "", [exEntryOld], sel0⟩ Event.clearAllClick).history = []
    ∧ (step ⟨none, "", "", [exEntryOld], sel0⟩ Event.clearAllClick).selectedForDelete 0
        = true
    ∧ ∀ (s : SessionState) (q : String) (d : GeoRecord) (ts : String),
        (step s (Event.respondOk q d ts)).selectedForDelete = s.selectedForDelete :=
  ⟨rfl, rfl, fun _ _ _ _ => rfl⟩

/-- C6: the history initializer absorbs a missing durable key, an empty
string and malformed JSON into the empty sequence; the `catch` makes it
total, so no exception reaches the caller. -/
theorem loadHistory_absorbs_corruption :
    loadHistory none = Json.jarr []
    ∧ loadHistory (some "") = Json.jarr []
    ∧ loadHistory (some "\x7bnot json") = Json.jarr [] :=
  ⟨rfl, rfl, rfl⟩

/-- C7: a failing lookup response leaves the current record unchanged and
sets the user-visible (non-empty) error message; a dispatch followed by
its successful response ends with the error cleared to `""`. -/
theorem lookup_error_preserves_geo_and_clears :
    (∀ (s : SessionState) (q : String),
      (step s (Event.respondErr q)).geo = s.geo
      ∧ (step s (Event.respondErr q)).error = errFetchMsg
      ∧ errFetchMsg ≠ "")
    ∧ ∀ (s : SessionState) (q : String) (d : GeoRecord) (ts : String),
        (step (step s (Event.dispatch q)) (Event.respondOk q d ts)).error = "" :=
  ⟨fun _ _ => ⟨rfl, rfl, by decide⟩, fun _ _ _ _ => rfl⟩

/-- C8: the validator is a total function into the three classes; it maps
`"8.8.8.8"` to IPv4, `"::1"` to IPv6 and `""` to Invalid; after trimming,
it accepts as IPv4 exactly the strings of four dot-separated decimal
octets in [0,255] (a three-digit octet may not start with `0`, the
compiled regex's reading of "no leading-zero ambiguity"), and as IPv6
exactly the full eight-group form or the `::1` loopback. -/
theorem classify_total_and_spec :
    classify "8.8.8.8" = IpClass.IPv4
    ∧ classify "::1" = IpClass.IPv6
    ∧ classify "" = IpClass.Invalid
    ∧ (∀ s, classify s = IpClass.IPv4 ∨ classify s = IpClass.IPv6
        ∨ classify s = IpClass.Invalid)
    ∧ (∀ s, classify s = IpClass.IPv4 ↔ specIPv4 (jsTrimS s))
    ∧ (∀ s, classify s = IpClass.IPv6
        ↔ (specIPv6Full (jsTrimS s) ∨ jsTrimS s = "::1")) := by
  refine ⟨by decide, by decide, by decide, ?_, ?_, ?_⟩
  · intro s
    cases h : classify s
    · exact Or.inl rfl
    · exact Or.inr (Or.inl rfl)
    · exact Or.inr (Or.inr rfl)
  · intro s
    exact (classify_eq_ipv4 s).trans (ipv4B_iff_spec _)
  · intro s
    rw [classify_eq_ipv6]
    constructor
    · intro h6
      have hor : ipv6FullB (jsTrimS s) = true ∨ jsTrimS s = "::1" := by
        simpa [ipv6B] using h6
      rcases hor with hf | he
      · exact Or.inl ((ipv6FullB_iff_spec _).mp hf)
      · exact Or.inr he
    · intro h
      rcases h with hf | he
      · have := (ipv6FullB_iff_spec _).mpr hf
        simp [ipv6B, this]
      · simp [ipv6B, he]

/-- C9: committing a deletion with indices 0 and 2 marked on a 3-entry
history keeps exactly the former index-1 entry and resets the
SelectionSet to the empty map. -/
theorem deleteSelected_removes_marked (a b c : HistoryEntry)
    (g : Option GeoRecord) (se er : String) :
    (step ⟨g, se, er, [a, b, c], sel02⟩ Event.deleteSelectedClick).history = [b]
    ∧ (step ⟨g, se, er, [a, b, c], sel02⟩ Event.deleteSelectedClick).selectedForDelete
        = fun _ => false :=
  ⟨rfl, rfl⟩

/-- C10: a query accepted by `handleSearch` is the trimmed typed text, and
the history entry recorded when its lookup succeeds carries exactly that
query string as its `ip` (whatever `ip` the provider returned in `data`),
with deduplication keyed on the same query string. -/
theorem entry_ip_is_typed_query (t q : String) (hq : handleSearchQuery t = some q) :
    q = jsTrimS t
    ∧ ∀ (s : SessionState) (d : GeoRecord) (ts : String),
        (step s (Event.respondOk q d ts)).history.head?
          = some (HistoryEntry.mk q d ts)
        ∧ (step s (Event.respondOk q d ts)).history.tail
          = (s.history.filter (fun h => decide (h.ip ≠ q))).take 49 := by
  unfold handleSearchQuery at hq
  by_cases h0 : jsTrimS t = ""
  · rw [if_pos h0] at hq
    exact absurd hq (by simp)
  · rw [if_neg h0] at hq
    by_cases hv : (ipv4B (jsTrimS t) || ipv6B (jsTrimS t)) = true
    · rw [if_neg (by simp [hv])] at hq
      obtain rfl : q = jsTrimS t := (Option.some.inj hq).symm
      refine ⟨rfl, fun s d ts => ?_⟩
      have hgeo : jsTrimS t ≠ "geo" := by
        intro he
        rw [he] at hv
        exact absurd hv (by decide)
      constructor
      · simp only [step, if_pos hgeo]
        rw [recordLookup_eq]
        rfl
      · simp only [step, if_pos hgeo]
        rw [recordLookup_eq]
        rfl
    · have hvf : (ipv4B (jsTrimS t) || ipv6B (jsTrimS t)) = false :=
        Bool.eq_false_iff.mpr hv
      rw [if_pos (by simp [hvf])] at hq
      exact absurd hq (by simp)

/-- C10 witness: typing `" 8.8.8.8 "` dispatches the trimmed `"8.8.8.8"`,
and a successful response whose provider record carries a different `ip`
(`2.2.2.2`) still records the history entry under `"8.8.8.8"`. -/
theorem entry_ip_is_typed_query_witness :
    handleSearchQuery " 8.8.8.8 " = some "8.8.8.8"
    ∧ "8.8.8.8" = jsTrimS " 8.8.8.8 "
    ∧ (step freshSession (Event.respondOk "8.8.8.8" exRecB "t")).history.head?
        = some (HistoryEntry.mk "8.8.8.8" exRecB "t") :=
  ⟨rfl, (entry_ip_is_typed_query " 8.8.8.8 " "8.8.8.8" rfl).1,
   ((entry_ip_is_typed_query " 8.8.8.8 " "8.8.8.8" rfl).2 freshSession exRecB "t").1⟩
